import Mathlib

set_option maxHeartbeats 1000000

/-
Shallow embedding of the Steam profile comment crawler
(`src/parser.py` of njituew/steam_comments_parser).

HTML documents are modelled at the level of what the BeautifulSoup queries
in the source return (each `find`/`find_all` call becomes a field holding
its result); regular-expression and JSON library calls on script bodies are
modelled by the value they extract.  All definitions other than those
explicitly marked as library models are translated line by line from the
source.
-/

namespace SteamComments

/-- Model of `str.startswith` at the character-list level: `prefixMatch p s`
is true when the list `p` is an initial segment of `s`. -/
def prefixMatch : List Char → List Char → Bool
  | [], _ => true
  | _ :: _, [] => false
  | p :: ps, c :: cs => if p = c then prefixMatch ps cs else false

/-- Model of Python substring search (`pat in s`) on character lists:
true when `pat` occurs contiguously inside `s`. -/
def subMatch (pat : List Char) : List Char → Bool
  | [] => prefixMatch pat []
  | c :: cs => prefixMatch pat (c :: cs) || subMatch pat cs

/-- Model of Python `pat in s` on strings. -/
def strContains (s pat : String) : Bool := subMatch pat.data s.data

/-- Model of Python `s.startswith(pre)`. -/
def pyStartsWith (s pre : String) : Bool := prefixMatch pre.data s.data

/-- ASCII whitespace recognizer, modelling the characters Python `str.strip`
removes (restricted to the ASCII range, which is all the source exercises). -/
def isPySpace (c : Char) : Bool :=
  c = ' ' || c = '\t' || c = '\n' || c = '\r' || c = '\x0b' || c = '\x0c'

/-- Model of Python `s.strip()`: remove leading and trailing whitespace. -/
def pyStrip (s : String) : String :=
  ⟨((s.data.dropWhile isPySpace).reverse.dropWhile isPySpace).reverse⟩

/-- Fuelled worker for `pyReplace`; the fuel is the length of the subject
string, which bounds the number of replacement steps. -/
def replaceAllFuel (pat rep : List Char) : Nat → List Char → List Char
  | 0, s => s
  | _ + 1, [] => []
  | fuel + 1, c :: cs =>
    if prefixMatch pat (c :: cs) then
      rep ++ replaceAllFuel pat rep fuel (List.drop (pat.length - 1) cs)
    else
      c :: replaceAllFuel pat rep fuel cs

/-- Model of Python `s.replace(pat, rep)` for a non-empty `pat`: every
non-overlapping occurrence of `pat` in `s`, scanning left to right, is
replaced by `rep`. -/
def pyReplace (s pat rep : String) : String :=
  ⟨replaceAllFuel pat.data rep.data s.data.length s.data⟩

/-- Decimal digit character for a value below ten. -/
def digitChar (d : Nat) : Char := Char.ofNat (48 + d)

/-- Fuelled decimal printer for naturals. -/
def natToStrAux : Nat → Nat → List Char
  | 0, _ => []
  | fuel + 1, n =>
    if n < 10 then [digitChar n]
    else natToStrAux fuel (n / 10) ++ [digitChar (n % 10)]

/-- Model of Python `str(n)` for a non-negative integer: decimal notation. -/
def natToStr (n : Nat) : String := ⟨natToStrAux (n + 1) n⟩

/-- Numeric value of a list of decimal digit characters. -/
def digitsToNat (ds : List Char) : Nat :=
  ds.foldl (fun a c => a * 10 + (c.toNat - 48)) 0

/-- Digit-run parser for the tail of a Python integer literal: after an
initial digit has been consumed, accepts further digits with single
underscores allowed between digits (as Python `int` does). -/
def parseDigitsU (acc : Nat) : List Char → Option Nat
  | [] => some acc
  | '_' :: c :: rest =>
    if c.isDigit then parseDigitsU (acc * 10 + (c.toNat - 48)) rest else none
  | ['_'] => none
  | c :: rest =>
    if c.isDigit then parseDigitsU (acc * 10 + (c.toNat - 48)) rest else none

/-- Parse a non-empty run of decimal digits (with Python's underscore
grouping) into a natural number. -/
def natFromIntLit : List Char → Option Nat
  | [] => none
  | c :: rest => if c.isDigit then parseDigitsU (c.toNat - 48) rest else none

/-- Model of Python `int(s)` on an already-stripped string: optional sign
followed by a non-empty digit run; `none` models the `ValueError` the
source catches. -/
def pyIntOfString (s : String) : Option Int :=
  match s.data with
  | '+' :: ds => (natFromIntLit ds).map (fun n => (n : Int))
  | '-' :: ds => (natFromIntLit ds).map (fun n => -(n : Int))
  | ds => (natFromIntLit ds).map (fun n => (n : Int))

/-- Model of `re.search(marker + r"(\d+)", s)`: scan left to right for the
first occurrence of `marker` followed by at least one digit, returning the
maximal digit run that follows it. -/
def searchDigitsAux (marker : List Char) : List Char → Option (List Char)
  | [] => none
  | c :: cs =>
    if prefixMatch marker (c :: cs) then
      let ds := List.takeWhile Char.isDigit (List.drop marker.length (c :: cs))
      if ds.isEmpty then searchDigitsAux marker cs else some ds
    else searchDigitsAux marker cs

/-- String wrapper for `searchDigitsAux`. -/
def searchMarkerDigits (marker s : String) : Option String :=
  (searchDigitsAux marker.data s.data).map (fun l => ⟨l⟩)

/-- Model of `re.search(marker + r"([^/]+)", s)`: scan for the first
occurrence of `marker` followed by at least one character other than a
slash, returning the maximal such run. -/
def searchSegAux (marker : List Char) : List Char → Option (List Char)
  | [] => none
  | c :: cs =>
    if prefixMatch marker (c :: cs) then
      let seg := List.takeWhile (fun d => if d = '/' then false else true)
        (List.drop marker.length (c :: cs))
      if seg.isEmpty then searchSegAux marker cs else some seg
    else searchSegAux marker cs

/-- String wrapper for `searchSegAux`. -/
def searchMarkerSeg (marker s : String) : Option String :=
  (searchSegAux marker.data s.data).map (fun l => ⟨l⟩)

/-- Characters of `s` after the first occurrence of `marker`, if any. -/
def afterMarkerAux (marker : List Char) : List Char → Option (List Char)
  | [] => none
  | c :: cs =>
    if prefixMatch marker (c :: cs) then some (List.drop marker.length (c :: cs))
    else afterMarkerAux marker cs

/-- Model of `urlparse(url).netloc` for absolute `http(s)` URLs: the text
between `://` and the next `/`, `?` or `#`. -/
def netlocOf (url : String) : String :=
  match afterMarkerAux "://".data url.data with
  | none => ""
  | some rest =>
    ⟨List.takeWhile (fun c => if c = '/' ∨ c = '?' ∨ c = '#' then false else true) rest⟩

/-- Simplified model of `urljoin(base, rel)` for a plain relative reference:
drop the last path segment of `base` and append `rel` (no dot-segment or
scheme handling; this branch is not exercised by any theorem below). -/
def urljoinRel (base rel : String) : String :=
  (⟨(base.data.reverse.dropWhile (fun c => if c = '/' then false else true)).reverse⟩ : String)
    ++ rel

/-- Model of `" ".join(classes)`. -/
def joinClasses : List String → String
  | [] => ""
  | [s] => s
  | s :: rest => s ++ " " ++ joinClasses rest

/- ### Data model -/

/-- One extracted comment record, as built by `_parse_single_comment`.
The `parsed_time` field models `datetime.now().isoformat()`; the wall clock
is passed in as an explicit parameter `now` below. -/
structure CommentData where
  user : String
  steam_id : Option String
  profile_url : String
  comment_text : String
  timestamp : String
  avatar_url : String
  status : String
  comment_id : String
  parsed_time : String
  deriving DecidableEq, Repr

/-- Per-user aggregate entry of `self.comments_data`: a `count` and the list
of that user's comments in discovery order. -/
structure UserEntry where
  count : Nat
  comments : List CommentData
  deriving DecidableEq, Repr

/-- Mutable crawl state of one `parse_profile` invocation: `seen` models
`self.seen_comment_ids` (insertion order of a Python set is irrelevant; ids
are only ever added when absent, so a duplicate-free list is an exact
model), `data` models the insertion-ordered `self.comments_data` mapping,
`total` models `self.total_comments`. -/
structure CrawlState where
  seen : List String
  data : List (String × UserEntry)
  total : Nat
  deriving DecidableEq, Repr

/-- Fresh state built by `__init__`. -/
def initialState : CrawlState := ⟨[], [], 0⟩

/-- An anchor element as the extractor sees it: stripped text and an
optional `href` attribute. -/
structure LinkTag where
  text : String
  href : Option String
  deriving DecidableEq, Repr

/-- A span element: optional `title` attribute and stripped text. -/
structure SpanTag where
  title : Option String
  text : String
  deriving DecidableEq, Repr

/-- An image element: optional `src` attribute. -/
structure ImgTag where
  src : Option String
  deriving DecidableEq, Repr

/-- One comment block, modelled by the results of every BeautifulSoup query
`_parse_single_comment` performs on it: for each field the primary selector
result and the fallback selector result. -/
structure Block where
  authorLinkA : Option LinkTag
  authorLinkB : Option LinkTag
  textDivA : Option String
  textDivB : Option String
  tsSpanA : Option SpanTag
  tsSpanB : Option SpanTag
  avatarImgA : Option ImgTag
  avatarImgB : Option ImgTag
  avatarDivClasses : Option (List String)
  idAttr : Option String
  deriving DecidableEq, Repr

/-- One page's markup as `_parse_comments_from_html` sees it: the blocks
matched by the primary `commentthread_comment` selector and those matched
by the fallback class-contains-"comment" selector. -/
structure PageMarkup where
  blocksA : List Block
  blocksB : List Block
  deriving DecidableEq, Repr

/-- Comment blocks used by `_parse_comments_from_html`: the primary
selection, or the fallback selection when the primary finds nothing. -/
def pageBlocks (pm : PageMarkup) : List Block :=
  if pm.blocksA.isEmpty then pm.blocksB else pm.blocksA

/-- The Russian placeholder text of system messages that
`_parse_comments_from_html` skips. -/
def placeholderMsg : String := "Это сообщение ещё не проанализировано нашей системой"

/- ### Extractor (`_parse_single_comment`) -/

/-- Author link lookup: primary `commentthread_author_link` selector, else
the profile-href fallback selector. -/
def authorLinkOf (b : Block) : Option LinkTag :=
  match b.authorLinkA with
  | some l => some l
  | none => b.authorLinkB

/-- Comment-text container lookup: primary selector, else the
class-contains-"text" fallback. -/
def textOf (b : Block) : Option String :=
  match b.textDivA with
  | some t => some t
  | none => b.textDivB

/-- Timestamp span lookup: primary selector, else the
class-contains-"timestamp" fallback. -/
def tsSpanOf (b : Block) : Option SpanTag :=
  match b.tsSpanA with
  | some s => some s
  | none => b.tsSpanB

/-- Timestamp extraction: the span's `title` attribute, else its visible
text, else the empty string. -/
def timestampOf (b : Block) : String :=
  match tsSpanOf b with
  | none => ""
  | some sp =>
    let t := match sp.title with | some t => t | none => ""
    if t = "" then sp.text else t

/-- Avatar URL: the `src` of the first matching image, preferring the
fastly CDN pattern, else the broader steamstatic pattern. -/
def avatarOf (b : Block) : String :=
  match (match b.avatarImgA with | some i => some i | none => b.avatarImgB) with
  | none => ""
  | some img => match img.src with | some s => s | none => ""

/-- Online-status derivation from the avatar div's class list. -/
def statusOf (b : Block) : String :=
  match b.avatarDivClasses with
  | none => "unknown"
  | some cls =>
    let s := joinClasses cls
    if strContains s "online" then "online"
    else if strContains s "offline" then "offline"
    else if strContains s "in-game" then "in-game"
    else "unknown"

/-- Steam identity extraction from the author's profile link: a numeric
`/profiles/` id, else an `/id/` handle, else absent; an empty link yields
absent. -/
def extractSteamId (link : String) : Option String :=
  if link = "" then none
  else
    match searchMarkerDigits "/profiles/" link with
    | some ds => some ds
    | none => searchMarkerSeg "/id/" link

/-- Comment-id derivation of `_parse_single_comment`: take the block's `id`
attribute (default empty); when it starts with `comment_`, apply
`str.replace("comment_", "")`, which removes every occurrence; when the
result is empty, synthesize `{user}_{timestamp}_{hash(text) % 1000000}`.
The Python `hash` builtin is passed in as the parameter `h`. -/
def deriveCommentId (h : String → Int) (idAttr : Option String)
    (user timestamp text : String) : String :=
  let cid0 := match idAttr with | some s => s | none => ""
  let cid1 := if pyStartsWith cid0 "comment_" then pyReplace cid0 "comment_" "" else cid0
  if cid1 = "" then
    user ++ "_" ++ timestamp ++ "_" ++ natToStr ((h text).emod 1000000).toNat
  else cid1

/-- The spec's own wording of the id rule, for comparison: the identifier
attribute with one leading `comment_` prefix removed. -/
def specPrefixStripped (s : String) : String :=
  if pyStartsWith s "comment_" then ⟨s.data.drop 8⟩ else s

/-- Model of `_parse_single_comment`: returns `none` exactly when neither
author-link selector matches; otherwise builds the record.  `h` models the
Python `hash` builtin, `now` models `datetime.now().isoformat()`. -/
def parse_single_comment (h : String → Int) (now : String) (b : Block) :
    Option CommentData :=
  match authorLinkOf b with
  | none => none
  | some link =>
    let user_name := link.text
    let user_profile_link := match link.href with | some s => s | none => ""
    let steam_id := extractSteamId user_profile_link
    let comment_text := match textOf b with | some t => t | none => ""
    let timestamp := timestampOf b
    some ⟨user_name, steam_id, user_profile_link, comment_text, timestamp,
      avatarOf b, statusOf b,
      deriveCommentId h b.idAttr user_name timestamp comment_text, now⟩

/- ### Deduplicator and per-page parse (`_parse_comments_from_html`) -/

/-- Model of the `defaultdict` update: get-or-create the user's entry,
increment its count and append the comment. -/
def bumpUser : List (String × UserEntry) → String → CommentData → List (String × UserEntry)
  | [], u, c => [(u, ⟨1, [c]⟩)]
  | (k, e) :: rest, u, c =>
    if k = u then (k, ⟨e.count + 1, e.comments ++ [c]⟩) :: rest
    else (k, e) :: bumpUser rest u c

/-- Loop body of `_parse_comments_from_html` for one block: parse it, skip
empty or placeholder text, skip already-seen ids, otherwise admit the
record (mark seen, update the aggregate, bump the total).  The boolean
reports whether the record was admitted (counted). -/
def processBlock (h : String → Int) (now : String) (st : CrawlState) (b : Block) :
    CrawlState × Bool :=
  match parse_single_comment h now b with
  | none => (st, false)
  | some cd =>
    if pyStrip cd.comment_text = "" then (st, false)
    else if strContains cd.comment_text placeholderMsg then (st, false)
    else if cd.comment_id ∈ st.seen then (st, false)
    else (⟨st.seen ++ [cd.comment_id], bumpUser st.data cd.user cd, st.total + 1⟩, true)

/-- Fold of `processBlock` over a page's blocks, returning the new state
and the page's `comments_count` (number of newly admitted records). -/
def processBlocks (h : String → Int) (now : String) : CrawlState → List Block → CrawlState × Nat
  | st, [] => (st, 0)
  | st, b :: bs =>
    ((processBlocks h now (processBlock h now st b).1 bs).1,
      (if (processBlock h now st b).2 then 1 else 0) +
        (processBlocks h now (processBlock h now st b).1 bs).2)

/-- Model of `_parse_comments_from_html`: select the blocks and process
them, returning the new state and the returned `comments_count`. -/
def parse_comments_from_html (h : String → Int) (now : String) (st : CrawlState)
    (pm : PageMarkup) : CrawlState × Nat :=
  processBlocks h now st (pageBlocks pm)

/-- Crawl of a sequence of pages through `_parse_comments_from_html`. -/
def runPages (h : String → Int) (now : String) : CrawlState → List PageMarkup → CrawlState
  | st, [] => st
  | st, pm :: ps => runPages h now (parse_comments_from_html h now st pm).1 ps

/-- All blocks of a page sequence, in processing order. -/
def pagesBlocks (ps : List PageMarkup) : List Block :=
  ps.foldr (fun pm acc => pageBlocks pm ++ acc) []

/-- A block can be admitted under id `id`: its parse succeeds and yields a
record with non-empty, non-placeholder text whose `comment_id` is `id`.
This is the state-independent part of the admission test; the remaining
test is membership of `id` in `seen`. -/
def BlockAdmitsId (h : String → Int) (now : String) (b : Block) (id : String) : Prop :=
  match parse_single_comment h now b with
  | none => False
  | some cd =>
    pyStrip cd.comment_text ≠ "" ∧ strContains cd.comment_text placeholderMsg = false ∧
      cd.comment_id = id

instance (h : String → Int) (now : String) (b : Block) (id : String) :
    Decidable (BlockAdmitsId h now b id) := by
  unfold BlockAdmitsId
  cases parse_single_comment h now b with
  | none => exact isFalse (fun x => x)
  | some cd => exact instDecidableAnd

/- ### Pagination resolver (`_get_total_comments_count`, `_get_all_comments_url`) -/

/-- A script tag: its `string` content, and the modelled result of the
`InitializeCommentThread` regular-expression capture followed by
`json.loads` and the `total_count` lookup (external `re`/`json` library
behaviour; `none` models no match, a JSON error, or a missing field, each
of which the source treats as failure of this script). -/
structure ScriptTag where
  string : Option String
  initThreadTotal : Option Int
  deriving DecidableEq, Repr

/-- The "all comments" anchor: stripped text and optional `href`. -/
structure ACLink where
  text : String
  href : Option String
  deriving DecidableEq, Repr

/-- First-page markup as the resolver sees it: all script tags, the
`commentthread_allcommentslink` anchor if present, the text of the first
element whose id contains `totalcount` if present, and the modelled
`steamid` extracted from the `g_rgProfileData` script by regex + JSON if
present. -/
structure Soup where
  scripts : List ScriptTag
  allCommentsLink : Option ACLink
  totalcountElem : Option String
  gRgProfileSteamid : Option String
  deriving DecidableEq, Repr

/-- Strategy 1 of the count resolver: first script whose string contains
`InitializeCommentThread` and whose structured-data capture yields a
`total_count`; scripts where extraction fails are skipped, as in the
source's `except: pass`. -/
def firstScriptTotal : List ScriptTag → Option Int
  | [] => none
  | sc :: rest =>
    match sc.string with
    | none => firstScriptTotal rest
    | some s =>
      if strContains s "InitializeCommentThread" then
        match sc.initThreadTotal with
        | some n => some n
        | none => firstScriptTotal rest
      else firstScriptTotal rest

/-- Model of `re.search(r"\((\d+)\)", s)`: leftmost parenthesized digit
run, as a natural number. -/
def findParenAux : List Char → Option Nat
  | [] => none
  | '(' :: rest =>
    let ds := List.takeWhile Char.isDigit rest
    if ds.isEmpty then findParenAux rest
    else
      match List.drop ds.length rest with
      | ')' :: _ => some (digitsToNat ds)
      | _ => findParenAux rest
  | _ :: rest => findParenAux rest

/-- String wrapper for `findParenAux`. -/
def findParenNat (s : String) : Option Nat := findParenAux s.data

/-- Strategy 2 of the count resolver: the parenthesized integer in the
"all comments" anchor text. -/
def totalFromLink : Option ACLink → Option Nat
  | none => none
  | some lk => findParenNat lk.text

/-- Strategy 3 of the count resolver: `int` of the stripped text of the
`totalcount` element; `none` models the caught `ValueError`. -/
def totalFromElem : Option String → Option Int
  | none => none
  | some txt => pyIntOfString (pyStrip txt)

/-- Model of `_get_total_comments_count`: the three strategies in order,
first success wins, `0` when all fail. -/
def get_total_comments_count (s : Soup) : Int :=
  match firstScriptTotal s.scripts with
  | some n => n
  | none =>
    match totalFromLink s.allCommentsLink with
    | some n => (n : Int)
    | none =>
      match totalFromElem s.totalcountElem with
      | some n => n
      | none => 0

/-- Model of `_normalize_url`: root-relative URLs are joined onto the
request's domain, other non-`http` URLs are joined relative to the base,
absolute URLs pass through. -/
def normalize_url (url base_url : String) : String :=
  if pyStartsWith url "/" then "https://" ++ netlocOf base_url ++ url
  else if pyStartsWith url "http" then url
  else urljoinRel base_url url

/-- URL strategy 1: the `href` of the "all comments" anchor, when present
and non-empty (Python truthiness), normalized. -/
def urlMethod1 (s : Soup) (base_url : String) : Option String :=
  match s.allCommentsLink with
  | none => none
  | some lk =>
    match lk.href with
    | none => none
    | some hr => if hr = "" then none else some (normalize_url hr base_url)

/-- URL strategy 2: synthesize from the profile-data `steamid` when present
and non-empty. -/
def urlMethod2 (s : Soup) : Option String :=
  match s.gRgProfileSteamid with
  | none => none
  | some sid =>
    if sid = "" then none
    else some ("https://steamcommunity.com/profiles/" ++ sid ++ "/allcomments")

/-- URL strategy 3: pattern-match the numeric id or named handle out of the
original request URL. -/
def urlMethod3 (base_url : String) : Option String :=
  if strContains base_url "/profiles/" then
    match searchMarkerDigits "/profiles/" base_url with
    | some ds => some ("https://steamcommunity.com/profiles/" ++ ds ++ "/allcomments")
    | none => none
  else if strContains base_url "/id/" then
    match searchMarkerSeg "/id/" base_url with
    | some seg => some ("https://steamcommunity.com/id/" ++ seg ++ "/allcomments")
    | none => none
  else none

/-- Model of `_get_all_comments_url`: the three strategies in order. -/
def get_all_comments_url (s : Soup) (base_url : String) : Option String :=
  match urlMethod1 s base_url with
  | some u => some u
  | none =>
    match urlMethod2 s with
    | some u => some u
    | none => urlMethod3 base_url

/- ### Page URL builder (`_get_page_url`) -/

/-- Split a query string at `&` separators, as `parse_qsl` does. -/
def splitAmp : List Char → List (List Char)
  | [] => [[]]
  | '&' :: rest => [] :: splitAmp rest
  | c :: rest =>
    match splitAmp rest with
    | [] => [[c]]
    | g :: gs => (c :: g) :: gs

/-- Split one `name=value` chunk at the first `=`; `none` when there is no
`=` (such chunks are skipped by `parse_qsl` with default options). -/
def splitEq1 : List Char → Option (List Char × List Char)
  | [] => none
  | '=' :: rest => some ([], rest)
  | c :: rest =>
    match splitEq1 rest with
    | none => none
    | some (n, v) => some (c :: n, v)

/-- Model of `urllib.parse.unquote_plus` restricted to the plus-to-space
step; percent-decoding is modelled as the identity, which is exact for
query strings without percent escapes (the only ones the theorems below
exercise). -/
def unquotePlusModel (s : List Char) : String :=
  ⟨s.map (fun c => if c = '+' then ' ' else c)⟩

/-- Model of `urllib.parse.quote_plus` restricted to the space-to-plus
step; percent-encoding is modelled as the identity, exact for unreserved
ASCII text. -/
def quotePlusModel (s : String) : String :=
  ⟨s.data.map (fun c => if c = ' ' then '+' else c)⟩

/-- Model of `urllib.parse.parse_qsl` with default options: split at `&`,
skip empty chunks, skip chunks without `=`, skip chunks with an empty
value (`keep_blank_values=False`), decode the rest. -/
def parse_qsl (qs : String) : List (String × String) :=
  (splitAmp qs.data).foldr
    (fun chunk acc =>
      if chunk.isEmpty then acc
      else
        match splitEq1 chunk with
        | none => acc
        | some (n, v) =>
          if v.isEmpty then acc else (unquotePlusModel n, unquotePlusModel v) :: acc)
    []

/-- Group one pair into the insertion-ordered `parse_qs` dictionary. -/
def qsInsert : List (String × List String) → String → String → List (String × List String)
  | [], k, v => [(k, [v])]
  | (k0, vs) :: rest, k, v =>
    if k0 = k then (k0, vs ++ [v]) :: rest else (k0, vs) :: qsInsert rest k v

/-- Model of `urllib.parse.parse_qs`: group the `parse_qsl` pairs by key,
preserving first-occurrence key order and value order. -/
def parse_qs (qs : String) : List (String × List String) :=
  (parse_qsl qs).foldl (fun acc p => qsInsert acc p.1 p.2) []

/-- Dictionary lookup in the `parse_qs` result. -/
def lookupQ : List (String × List String) → String → Option (List String)
  | [], _ => none
  | (k, v) :: rest, key => if k = key then some v else lookupQ rest key

/-- Model of `query_params["p"] = [...]`: overwrite the key in place when
present, else append it at the end (Python dict semantics). -/
def qsSet : List (String × List String) → String → List String → List (String × List String)
  | [], k, v => [(k, v)]
  | (k0, v0) :: rest, k, v =>
    if k0 = k then (k0, v) :: rest else (k0, v0) :: qsSet rest k v

/-- Join encoded pairs with `&`. -/
def joinAmp : List String → String
  | [] => ""
  | [s] => s
  | s :: rest => s ++ "&" ++ joinAmp rest

/-- Model of `urllib.parse.urlencode(query, doseq=True)`: one `k=v` chunk
per value, in dictionary order. -/
def urlencode (q : List (String × List String)) : String :=
  joinAmp (q.foldr
    (fun p acc => p.2.map (fun v => quotePlusModel p.1 ++ "=" ++ quotePlusModel v) ++ acc)
    [])

/-- The six `urlparse` components of the listing URL; `query` is kept as a
raw string, as `urlparse` returns it. -/
structure UrlParts where
  scheme : String
  netloc : String
  path : String
  params : String
  fragment : String
  query : String
  deriving DecidableEq, Repr

/-- Model of `ParseResult.geturl()` for absolute `http(s)` URLs. -/
def unparseUrl (u : UrlParts) : String :=
  u.scheme ++ "://" ++ u.netloc ++ u.path ++
    (if u.params = "" then "" else ";" ++ u.params) ++
    (if u.query = "" then "" else "?" ++ u.query) ++
    (if u.fragment = "" then "" else "#" ++ u.fragment)

/-- Raw parameter names present in a query string: for every non-empty
`&`-separated chunk, the text before the first `=`, or the whole chunk when
it has no `=`. -/
def rawQueryNames (qs : String) : List String :=
  (splitAmp qs.data).foldr
    (fun chunk acc =>
      if chunk.isEmpty then acc
      else
        match splitEq1 chunk with
        | none => (⟨chunk⟩ : String) :: acc
        | some (n, _) => (⟨n⟩ : String) :: acc)
    []

/-- Model of `_get_page_url`.  `base` models `self.base_comments_url`
(already `urlparse`d into its components; `none` models the unset case, in
which the source returns the empty string).  Page 1 with no `p` parameter
returns the base URL unchanged; otherwise the page parameter is set and
the URL is rebuilt from the re-encoded query. -/
def get_page_url (base : Option UrlParts) (page_num : Nat) : String :=
  match base with
  | none => ""
  | some u =>
    if page_num = 1 ∧ lookupQ (parse_qs u.query) "p" = none then unparseUrl u
    else
      unparseUrl ⟨u.scheme, u.netloc, u.path, u.params, u.fragment,
        urlencode (qsSet (parse_qs u.query) "p" [natToStr page_num])⟩

/- ### Orchestrator (`_parse_all_pages_optimized`, `parse_profile`) -/

/-- Model of Python `range(lo, lo + n)` as a list. -/
def rangeFrom (s : Nat) : Nat → List Nat
  | 0 => []
  | n + 1 => s :: rangeFrom (s + 1) n

/-- The page numbers `range(2, total_pages + 1)` visited by the loop. -/
def pageRange (total_pages : Nat) : List Nat := rangeFrom 2 (total_pages - 1)

/-- Loop body of `_parse_all_pages_optimized`.  `fetch p` models
`session.get(self._get_page_url(p))`: `none` is a request failure (the
loop logs and continues, leaving the zero-new-comments counter untouched),
`some pm` is the fetched markup.  The accumulator `cnt` models
`no_new_comments_pages`; the loop stops once it reaches 2 after a page
with no newly admitted comments, and a page with new admissions resets it.
The second component records the pages actually fetched, in order. -/
def pagesLoop (h : String → Int) (now : String) (fetch : Nat → Option PageMarkup) :
    List Nat → CrawlState → Nat → CrawlState × List Nat
  | [], st, _ => (st, [])
  | p :: rest, st, cnt =>
    match fetch p with
    | none =>
      ((pagesLoop h now fetch rest st cnt).1, p :: (pagesLoop h now fetch rest st cnt).2)
    | some pm =>
      if (parse_comments_from_html h now st pm).2 = 0 then
        if 2 ≤ cnt + 1 then ((parse_comments_from_html h now st pm).1, [p])
        else
          ((pagesLoop h now fetch rest (parse_comments_from_html h now st pm).1 (cnt + 1)).1,
            p :: (pagesLoop h now fetch rest (parse_comments_from_html h now st pm).1 (cnt + 1)).2)
      else
        ((pagesLoop h now fetch rest (parse_comments_from_html h now st pm).1 0).1,
          p :: (pagesLoop h now fetch rest (parse_comments_from_html h now st pm).1 0).2)

/-- Model of `_parse_all_pages_optimized`: run the loop over pages
`2..total_pages` with the counter starting at 0, also reporting which pages
were fetched. -/
def parse_all_pages_optimized (h : String → Int) (now : String)
    (fetch : Nat → Option PageMarkup) (total_pages : Nat) (st : CrawlState) :
    CrawlState × List Nat :=
  pagesLoop h now fetch (pageRange total_pages) st 0

/-- Steam shows 50 comments per page (`self.comments_per_page`). -/
def comments_per_page : Nat := 50

/-- The exception classes `parse_profile` distinguishes:
`requests.RequestException` and the generic `Exception` fallback. -/
inductive PyErr
  | requestExc
  | otherExc
  deriving DecidableEq, Repr

/-- The first page's response, as both resolver input and parseable
markup. -/
structure FirstPage where
  soup : Soup
  page : PageMarkup

/-- Model of `parse_profile`.  `firstFetch` models the initial
`session.get(profile_url)` together with `raise_for_status` and the markup
parse: an `error` lands in one of the two handlers, each returning the
empty mapping.  `fetch` models page fetches inside the loop (already
composed with `_get_page_url`). -/
def parse_profile (h : String → Int) (now : String) (profile_url : String)
    (firstFetch : Except PyErr FirstPage) (fetch : Nat → Option PageMarkup)
    (max_pages : Nat) : List (String × UserEntry) :=
  match firstFetch with
  | Except.error _ => []
  | Except.ok fp =>
    let total := get_total_comments_count fp.soup
    if 0 < total then
      match get_all_comments_url fp.soup profile_url with
      | some _ =>
        let tp0 := (total.toNat + comments_per_page - 1) / comments_per_page
        let total_pages := if max_pages ≠ 0 then min tp0 max_pages else tp0
        let st1 := (parse_comments_from_html h now initialState fp.page).1
        if 1 < total_pages then
          (parse_all_pages_optimized h now fetch total_pages st1).1.data
        else st1.data
      | none => (parse_comments_from_html h now initialState fp.page).1.data
    else (parse_comments_from_html h now initialState fp.page).1.data

/- ### Concrete fixtures for witnesses and counterexamples -/

/-- Fixed stand-in for the Python `hash` builtin used by concrete
witnesses; within one interpreter run `hash` is a fixed function, which is
all the processing relies on. -/
def hash0 : String → Int := fun _ => 0

/-- A valid comment block with explicit id `a1`. -/
def blockA : Block :=
  ⟨some ⟨"alice", none⟩, none, some "hello there", none, none, none, none, none, none, some "a1"⟩

/-- A valid comment block with explicit id `b1`. -/
def blockB : Block :=
  ⟨some ⟨"bob", none⟩, none, some "more text", none, none, none, none, none, none, some "b1"⟩

/-- A block where no selector matches anything. -/
def blockNone : Block := ⟨none, none, none, none, none, none, none, none, none, none⟩

/-- A block with an author link but no comment-text container. -/
def blockNT : Block :=
  ⟨some ⟨"carol", none⟩, none, none, none, none, none, none, none, none, some "c9"⟩

/-- The record `_parse_single_comment` builds for `blockNT`. -/
def cdNT : CommentData := ⟨"carol", none, "", "", "", "", "unknown", "c9", "T"⟩

/-- The record built for `blockA`. -/
def cdA0 : CommentData := ⟨"alice", none, "", "hello there", "", "", "unknown", "a1", "T"⟩

/-- The record built for `blockB`. -/
def cdB0 : CommentData := ⟨"bob", none, "", "more text", "", "", "unknown", "b1", "T"⟩

/-- A page containing `blockA`. -/
def pgA : PageMarkup := ⟨[blockA], []⟩

/-- A page containing `blockB`. -/
def pgB : PageMarkup := ⟨[blockB], []⟩

/-- A page with no comment blocks. -/
def pgE : PageMarkup := ⟨[], []⟩

/-- State after admitting `blockA` from the initial state. -/
def stA : CrawlState := ⟨["a1"], [("alice", ⟨1, [cdA0]⟩)], 1⟩

/-- State after additionally admitting `blockB`. -/
def stAB : CrawlState :=
  ⟨["a1", "b1"], [("alice", ⟨1, [cdA0]⟩), ("bob", ⟨1, [cdB0]⟩)], 2⟩

/-- A page-fetch function realizing the exhaustion scenario: new content on
pages 2 and 4, empty pages 3, 5 and 6, and new content again from page 7
on. -/
def fetchW : Nat → Option PageMarkup := fun p =>
  if p = 2 then some pgA
  else if p = 3 then some pgE
  else if p = 4 then some pgB
  else if p = 5 then some pgE
  else if p = 6 then some pgE
  else some pgB

/-- First-page markup with no init-script, no "all comments" anchor, and a
`totalcount` element reading 42. -/
def soup42 : Soup := ⟨[], none, some "42", none⟩

/-- First-page markup where every count strategy fails. -/
def soupEmptyRes : Soup := ⟨[], none, none, none⟩

/-- First-page markup whose init-script yields a total count of 7. -/
def soupScript : Soup :=
  ⟨[⟨some "InitializeCommentThread( a, b, x )", some 7⟩], none, none, none⟩

/-- A listing URL whose query carries a blank-valued parameter `a`. -/
def uCE : UrlParts := ⟨"https", "steamcommunity.com", "/profiles/1/allcomments", "", "", "a=&b=1"⟩

/-- A listing URL with one ordinary extra query parameter. -/
def u0 : UrlParts := ⟨"https", "h.example", "/x", "", "", "a=1"⟩

/- ### Helper lemmas about one processing step -/

/-- A processed block either leaves the state unchanged with `false`, or is
admitted: its parse succeeds, its text is non-empty and not the
placeholder, its id is fresh, and the state gains exactly that record. -/
theorem processBlock_cases (h : String → Int) (now : String) (st : CrawlState) (b : Block) :
    processBlock h now st b = (st, false) ∨
    ∃ cd, parse_single_comment h now b = some cd ∧ pyStrip cd.comment_text ≠ "" ∧
      strContains cd.comment_text placeholderMsg = false ∧ cd.comment_id ∉ st.seen ∧
      processBlock h now st b =
        (⟨st.seen ++ [cd.comment_id], bumpUser st.data cd.user cd, st.total + 1⟩, true) := by
  rcases hp : parse_single_comment h now b with _ | cd
  · left; simp [processBlock, hp]
  · by_cases h1 : pyStrip cd.comment_text = ""
    · left; simp [processBlock, hp, h1]
    · by_cases h2 : strContains cd.comment_text placeholderMsg = true
      · left; simp [processBlock, hp, h1, h2]
      · by_cases h3 : cd.comment_id ∈ st.seen
        · left; simp [processBlock, hp, h1, h2, h3]
        · right
          exact ⟨cd, rfl, h1, by simpa using h2, h3, by simp [processBlock, hp, h1, h2, h3]⟩

/-- Membership in `seen` after one block: the old members plus any id the
block can admit. -/
theorem processBlock_seen_mem (h : String → Int) (now : String) (st : CrawlState)
    (b : Block) (id : String) :
    id ∈ (processBlock h now st b).1.seen ↔ id ∈ st.seen ∨ BlockAdmitsId h now b id := by
  rcases hp : parse_single_comment h now b with _ | cd
  · simp [processBlock, hp, BlockAdmitsId]
  · by_cases h1 : pyStrip cd.comment_text = ""
    · simp [processBlock, hp, h1, BlockAdmitsId]
    · by_cases h2 : strContains cd.comment_text placeholderMsg = true
      · simp [processBlock, hp, h1, h2, BlockAdmitsId]
      · by_cases h3 : cd.comment_id ∈ st.seen
        · simp only [processBlock, hp, BlockAdmitsId]
          simp [h1, h2, h3]
          exact fun heq => heq ▸ h3
        · simp only [processBlock, hp, BlockAdmitsId]
          simp [h1, h2, h3, List.mem_append, eq_comm]

/-- A rejected block leaves the state untouched. -/
theorem processBlock_rejected_eq (h : String → Int) (now : String) (st : CrawlState)
    (b : Block) (hr : (processBlock h now st b).2 = false) :
    (processBlock h now st b).1 = st := by
  rcases processBlock_cases h now st b with heq | ⟨cd, _, _, _, _, heq⟩
  · rw [heq]
  · rw [heq] at hr ⊢
    simp at hr

/-- One block preserves duplicate-freeness of `seen`. -/
theorem processBlock_nodup (h : String → Int) (now : String) (st : CrawlState)
    (b : Block) (hn : st.seen.Nodup) : (processBlock h now st b).1.seen.Nodup := by
  rcases processBlock_cases h now st b with heq | ⟨cd, _, _, _, h3, heq⟩
  · rw [heq]; exact hn
  · rw [heq]
    simp [List.nodup_append, hn, h3]

/-- One block changes `total` and the size of `seen` by its admission
flag. -/
theorem processBlock_total (h : String → Int) (now : String) (st : CrawlState) (b : Block) :
    (processBlock h now st b).1.total =
      st.total + (if (processBlock h now st b).2 then 1 else 0) ∧
    (processBlock h now st b).1.seen.length =
      st.seen.length + (if (processBlock h now st b).2 then 1 else 0) := by
  rcases processBlock_cases h now st b with heq | ⟨cd, _, _, _, _, heq⟩ <;> rw [heq] <;> simp

/-- The get-or-create update keeps `count` equal to the length of the
comment list in every entry. -/
theorem bumpUser_count (data : List (String × UserEntry)) (u : String) (c : CommentData)
    (hd : ∀ p ∈ data, p.2.count = p.2.comments.length) :
    ∀ p ∈ bumpUser data u c, p.2.count = p.2.comments.length := by
  induction data with
  | nil =>
    intro p hp
    simp [bumpUser] at hp
    subst hp; simp
  | cons q rest ih =>
    obtain ⟨k, e⟩ := q
    intro p hp
    by_cases hk : k = u
    · simp [bumpUser, hk] at hp
      rcases hp with hp | hp
      · subst hp
        have he := hd (k, e) (by simp)
        simp at he ⊢
        omega
      · exact hd p (by simp [hp])
    · simp [bumpUser, hk] at hp
      rcases hp with hp | hp
      · subst hp
        exact hd (k, e) (by simp)
      · exact ih (fun q hq => hd q (by simp [hq])) p hp

/-- One block preserves the per-user count invariant. -/
theorem processBlock_data (h : String → Int) (now : String) (st : CrawlState) (b : Block)
    (hd : ∀ p ∈ st.data, p.2.count = p.2.comments.length) :
    ∀ p ∈ (processBlock h now st b).1.data, p.2.count = p.2.comments.length := by
  rcases processBlock_cases h now st b with heq | ⟨cd, _, _, _, _, heq⟩ <;> rw [heq]
  · exact hd
  · exact bumpUser_count st.data cd.user cd hd

/- ### Helper lemmas about a page and a page sequence -/

/-- Membership in `seen` after a block list. -/
theorem processBlocks_seen_mem (h : String → Int) (now : String) (bs : List Block) :
    ∀ (st : CrawlState) (id : String),
      id ∈ (processBlocks h now st bs).1.seen ↔
        id ∈ st.seen ∨ ∃ b ∈ bs, BlockAdmitsId h now b id := by
  induction bs with
  | nil => intro st id; simp [processBlocks]
  | cons b bs ih =>
    intro st id
    simp only [processBlocks]
    rw [ih, processBlock_seen_mem]
    simp only [List.exists_mem_cons_iff]
    tauto

/-- A block list adds its admission count to `total` and to the size of
`seen`. -/
theorem processBlocks_total (h : String → Int) (now : String) (bs : List Block) :
    ∀ st : CrawlState,
      (processBlocks h now st bs).1.total = st.total + (processBlocks h now st bs).2 ∧
      (processBlocks h now st bs).1.seen.length =
        st.seen.length + (processBlocks h now st bs).2 := by
  induction bs with
  | nil => intro st; simp [processBlocks]
  | cons b bs ih =>
    intro st
    have hpb := processBlock_total h now st b
    have hib := ih (processBlock h now st b).1
    simp only [processBlocks]
    constructor <;> omega

/-- A block list preserves duplicate-freeness of `seen`. -/
theorem processBlocks_nodup (h : String → Int) (now : String) (bs : List Block) :
    ∀ st : CrawlState, st.seen.Nodup → (processBlocks h now st bs).1.seen.Nodup := by
  induction bs with
  | nil => intro st hn; simpa [processBlocks] using hn
  | cons b bs ih =>
    intro st hn
    simp only [processBlocks]
    exact ih _ (processBlock_nodup h now st b hn)

/-- A block list preserves the per-user count invariant. -/
theorem processBlocks_data (h : String → Int) (now : String) (bs : List Block) :
    ∀ st : CrawlState, (∀ p ∈ st.data, p.2.count = p.2.comments.length) →
      ∀ p ∈ (processBlocks h now st bs).1.data, p.2.count = p.2.comments.length := by
  induction bs with
  | nil => intro st hd; simpa [processBlocks] using hd
  | cons b bs ih =>
    intro st hd
    simp only [processBlocks]
    exact ih _ (processBlock_data h now st b hd)

/-- Membership in `seen` after a page sequence. -/
theorem runPages_seen_mem (h : String → Int) (now : String) (ps : List PageMarkup) :
    ∀ (st : CrawlState) (id : String),
      id ∈ (runPages h now st ps).seen ↔
        id ∈ st.seen ∨ ∃ b ∈ pagesBlocks ps, BlockAdmitsId h now b id := by
  induction ps with
  | nil => intro st id; simp [runPages, pagesBlocks]
  | cons pm ps ih =>
    intro st id
    simp only [runPages, parse_comments_from_html]
    rw [ih, processBlocks_seen_mem]
    simp only [pagesBlocks, List.foldr_cons, List.mem_append]
    constructor
    · rintro ((hin | ⟨b, hb, hadm⟩) | ⟨b, hb, hadm⟩)
      · exact Or.inl hin
      · exact Or.inr ⟨b, Or.inl hb, hadm⟩
      · exact Or.inr ⟨b, Or.inr hb, hadm⟩
    · rintro (hin | ⟨b, hb | hb, hadm⟩)
      · exact Or.inl (Or.inl hin)
      · exact Or.inl (Or.inr ⟨b, hb, hadm⟩)
      · exact Or.inr ⟨b, hb, hadm⟩

/-- A page sequence preserves `total = |seen|`. -/
theorem runPages_total_inv (h : String → Int) (now : String) (ps : List PageMarkup) :
    ∀ st : CrawlState, st.total = st.seen.length →
      (runPages h now st ps).total = (runPages h now st ps).seen.length := by
  induction ps with
  | nil => intro st hst; simpa [runPages] using hst
  | cons pm ps ih =>
    intro st hst
    simp only [runPages, parse_comments_from_html]
    apply ih
    have := processBlocks_total h now (pageBlocks pm) st
    omega

/-- A page sequence preserves duplicate-freeness of `seen`. -/
theorem runPages_nodup (h : String → Int) (now : String) (ps : List PageMarkup) :
    ∀ st : CrawlState, st.seen.Nodup → (runPages h now st ps).seen.Nodup := by
  induction ps with
  | nil => intro st hn; simpa [runPages] using hn
  | cons pm ps ih =>
    intro st hn
    simp only [runPages, parse_comments_from_html]
    exact ih _ (processBlocks_nodup h now (pageBlocks pm) st hn)

/-- A page sequence preserves the per-user count invariant. -/
theorem runPages_data (h : String → Int) (now : String) (ps : List PageMarkup) :
    ∀ st : CrawlState, (∀ p ∈ st.data, p.2.count = p.2.comments.length) →
      ∀ p ∈ (runPages h now st ps).data, p.2.count = p.2.comments.length := by
  induction ps with
  | nil => intro st hd; simpa [runPages] using hd
  | cons pm ps ih =>
    intro st hd
    simp only [runPages, parse_comments_from_html]
    exact ih _ (processBlocks_data h now (pageBlocks pm) st hd)

/-- Setting one key in the parsed query dictionary does not change the
lookup of any other key. -/
theorem qsSet_lookupQ (q : List (String × List String)) (k : String) (v : List String)
    (key : String) (hne : key ≠ k) :
    lookupQ (qsSet q k v) key = lookupQ q key := by
  induction q with
  | nil =>
    have : ¬ k = key := fun heq => hne heq.symm
    simp [qsSet, lookupQ, this]
  | cons p rest ih =>
    obtain ⟨k0, v0⟩ := p
    by_cases hk : k0 = k
    · subst hk
      have : ¬ k0 = key := fun heq => hne heq.symm
      simp [qsSet, lookupQ, this]
    · by_cases hkey : k0 = key
      · simp [qsSet, lookupQ, hk, hkey, hne]
      · simp [qsSet, lookupQ, hk, hkey, ih]

/- ### Step lemmas for the page loop -/

/-- A failed fetch is recorded and the loop continues with the counter
untouched. -/
theorem pagesLoop_step_fail (h : String → Int) (now : String)
    (fetch : Nat → Option PageMarkup) (p : Nat) (rest : List Nat) (st : CrawlState)
    (cnt : Nat) (hf : fetch p = none) :
    pagesLoop h now fetch (p :: rest) st cnt =
      ((pagesLoop h now fetch rest st cnt).1, p :: (pagesLoop h now fetch rest st cnt).2) := by
  simp only [pagesLoop, hf]

/-- A page with new admissions resets the counter to zero. -/
theorem pagesLoop_step_new (h : String → Int) (now : String)
    (fetch : Nat → Option PageMarkup) (p : Nat) (rest : List Nat) (st : CrawlState)
    (cnt : Nat) (pm : PageMarkup) (st' : CrawlState) (k : Nat)
    (hf : fetch p = some pm) (hp : parse_comments_from_html h now st pm = (st', k))
    (hk : k ≠ 0) :
    pagesLoop h now fetch (p :: rest) st cnt =
      ((pagesLoop h now fetch rest st' 0).1, p :: (pagesLoop h now fetch rest st' 0).2) := by
  simp only [pagesLoop, hf, hp]
  simp [hk]

/-- A first page without new admissions bumps the counter and continues. -/
theorem pagesLoop_step_zero (h : String → Int) (now : String)
    (fetch : Nat → Option PageMarkup) (p : Nat) (rest : List Nat) (st : CrawlState)
    (cnt : Nat) (pm : PageMarkup) (st' : CrawlState)
    (hf : fetch p = some pm) (hp : parse_comments_from_html h now st pm = (st', 0))
    (hc : cnt + 1 < 2) :
    pagesLoop h now fetch (p :: rest) st cnt =
      ((pagesLoop h now fetch rest st' (cnt + 1)).1,
        p :: (pagesLoop h now fetch rest st' (cnt + 1)).2) := by
  have h2 : ¬ 2 ≤ cnt + 1 := by omega
  simp only [pagesLoop, hf, hp]
  simp [h2]

/-- A second consecutive page without new admissions stops the loop. -/
theorem pagesLoop_step_stop (h : String → Int) (now : String)
    (fetch : Nat → Option PageMarkup) (p : Nat) (rest : List Nat) (st : CrawlState)
    (cnt : Nat) (pm : PageMarkup) (st' : CrawlState)
    (hf : fetch p = some pm) (hp : parse_comments_from_html h now st pm = (st', 0))
    (hc : 2 ≤ cnt + 1) :
    pagesLoop h now fetch (p :: rest) st cnt = (st', [p]) := by
  simp only [pagesLoop, hf, hp]
  simp [hc]

/- ### Claim theorems -/

/-- Claim C1: over any sequence of pages processed in one crawl from the
fresh state, a commentId is admitted at most once (`seen` is
duplicate-free), an id is admitted (is in `seen`) exactly when some block
of the sequence can admit it, and `total_comments` equals the number of
distinct admitted ids, which is the size of `seen_comment_ids`. -/
theorem c1_dedup_total (h : String → Int) (now : String) (ps : List PageMarkup) :
    (runPages h now initialState ps).seen.Nodup ∧
    (runPages h now initialState ps).total = (runPages h now initialState ps).seen.length ∧
    ∀ id : String, id ∈ (runPages h now initialState ps).seen ↔
      ∃ b ∈ pagesBlocks ps, BlockAdmitsId h now b id := by
  refine ⟨runPages_nodup h now ps initialState (by simp [initialState]),
    runPages_total_inv h now ps initialState (by simp [initialState]), ?_⟩
  intro id
  rw [runPages_seen_mem]
  simp [initialState]

/-- Claim C2: every user entry of the aggregate mapping reached by any
sequence of page parses within one crawl has `count` equal to the length
of its comments list. -/
theorem c2_aggregate_invariant (h : String → Int) (now : String) (ps : List PageMarkup)
    (u : String) (e : UserEntry)
    (hmem : (u, e) ∈ (runPages h now initialState ps).data) :
    e.count = e.comments.length :=
  runPages_data h now ps initialState (by simp [initialState]) (u, e) hmem

/-- Witness for C2 at a concrete one-page crawl. -/
theorem c2_aggregate_witness :
    (UserEntry.mk 1 [cdA0]).count = (UserEntry.mk 1 [cdA0]).comments.length :=
  c2_aggregate_invariant hash0 "T" [pgA] "alice" ⟨1, [cdA0]⟩ (by decide)

/-- Claim C3: the page loop counts consecutive pages with zero newly
admitted comments and stops once the count reaches 2; in the scenario
where page 3 yields nothing, page 4 yields new admissions (resetting the
counter), and pages 5 and 6 yield nothing, the loop fetches exactly pages
2 through 6 and never fetches page 7, whatever page 7 would contain. -/
theorem c3_exhaustion_stop (h : String → Int) (now : String)
    (fetch : Nat → Option PageMarkup) (total_pages : Nat)
    (st0 st2 st3 st4 st5 st6 : CrawlState)
    (pm2 pm3 pm4 pm5 pm6 : PageMarkup) (k2 k4 : Nat)
    (htp : 7 ≤ total_pages)
    (hf2 : fetch 2 = some pm2)
    (hp2 : parse_comments_from_html h now st0 pm2 = (st2, k2)) (hk2 : k2 ≠ 0)
    (hf3 : fetch 3 = some pm3)
    (hp3 : parse_comments_from_html h now st2 pm3 = (st3, 0))
    (hf4 : fetch 4 = some pm4)
    (hp4 : parse_comments_from_html h now st3 pm4 = (st4, k4)) (hk4 : k4 ≠ 0)
    (hf5 : fetch 5 = some pm5)
    (hp5 : parse_comments_from_html h now st4 pm5 = (st5, 0))
    (hf6 : fetch 6 = some pm6)
    (hp6 : parse_comments_from_html h now st5 pm6 = (st6, 0)) :
    (parse_all_pages_optimized h now fetch total_pages st0).2 = [2, 3, 4, 5, 6] ∧
    7 ∉ (parse_all_pages_optimized h now fetch total_pages st0).2 := by
  obtain ⟨m, hm⟩ : ∃ m, total_pages - 1 = m + 5 := ⟨total_pages - 6, by omega⟩
  have hrange : pageRange total_pages = 2 :: 3 :: 4 :: 5 :: 6 :: rangeFrom 7 m := by
    unfold pageRange
    rw [hm]
    exact rfl
  have key : pagesLoop h now fetch (2 :: 3 :: 4 :: 5 :: 6 :: rangeFrom 7 m) st0 0 =
      (st6, [2, 3, 4, 5, 6]) := by
    rw [pagesLoop_step_new h now fetch 2 _ st0 0 pm2 st2 k2 hf2 hp2 hk2]
    rw [pagesLoop_step_zero h now fetch 3 _ st2 0 pm3 st3 hf3 hp3 (by omega)]
    rw [pagesLoop_step_new h now fetch 4 _ st3 1 pm4 st4 k4 hf4 hp4 hk4]
    rw [pagesLoop_step_zero h now fetch 5 _ st4 0 pm5 st5 hf5 hp5 (by omega)]
    rw [pagesLoop_step_stop h now fetch 6 _ st5 1 pm6 st6 hf6 hp6 (by omega)]
  unfold parse_all_pages_optimized
  rw [hrange, key]
  exact ⟨rfl, by simp⟩

/-- Witness for C3 at the concrete scenario fetch function. -/
theorem c3_exhaustion_witness :
    (parse_all_pages_optimized hash0 "T" fetchW 10 initialState).2 = [2, 3, 4, 5, 6] ∧
    7 ∉ (parse_all_pages_optimized hash0 "T" fetchW 10 initialState).2 :=
  c3_exhaustion_stop hash0 "T" fetchW 10 initialState stA stA stAB stAB stAB
    pgA pgE pgB pgE pgE 1 1 (by decide)
    rfl (by decide) (by decide)
    rfl (by decide)
    rfl (by decide) (by decide)
    rfl (by decide)
    rfl (by decide)

/-- Counterexample for C4: the claim says every other query parameter of
the listing URL is preserved untouched for pages above 1, but a parameter
with a blank value (here `a` in `a=&b=1`) is dropped by the query
re-encoding, so it is absent from the built URL. -/
theorem c4_cex :
    get_page_url (some uCE) 2 =
      "https://steamcommunity.com/profiles/1/allcomments?b=1&p=2" ∧
    "a" ∈ rawQueryNames uCE.query ∧
    "a" ∉ rawQueryNames "b=1&p=2" := by decide

/-- Claim C4 (amended): page 1 with no `p` parameter returns the listing
URL unchanged; for a page number above 1, the rebuilt URL keeps scheme,
host, path, params and fragment, its query is the re-encoding of the
parsed parameters with `p` set, and every parameter other than `p` that
survives query parsing (those with non-empty values) keeps its values.
Parameters with blank values or without `=` are dropped by the parsing
step, which is what the counterexample exhibits. -/
theorem c4_page_url_amended (u : UrlParts) :
    (lookupQ (parse_qs u.query) "p" = none → get_page_url (some u) 1 = unparseUrl u) ∧
    ∀ n : Nat, 2 ≤ n →
      get_page_url (some u) n =
        unparseUrl ⟨u.scheme, u.netloc, u.path, u.params, u.fragment,
          urlencode (qsSet (parse_qs u.query) "p" [natToStr n])⟩ ∧
      ∀ k : String, k ≠ "p" →
        lookupQ (qsSet (parse_qs u.query) "p" [natToStr n]) k =
          lookupQ (parse_qs u.query) k := by
  constructor
  · intro hp
    simp [get_page_url, hp]
  · intro n hn
    have hcond : ¬ (n = 1 ∧ lookupQ (parse_qs u.query) "p" = none) := by
      rintro ⟨rfl, _⟩
      omega
    constructor
    · simp [get_page_url, hcond]
    · intro k hk
      exact qsSet_lookupQ (parse_qs u.query) "p" [natToStr n] k hk

/-- Witness for C4 at a concrete listing URL. -/
theorem c4_page_url_witness :
    get_page_url (some u0) 1 = unparseUrl u0 ∧
    get_page_url (some u0) 2 =
      unparseUrl ⟨u0.scheme, u0.netloc, u0.path, u0.params, u0.fragment,
        urlencode (qsSet (parse_qs u0.query) "p" [natToStr 2])⟩ ∧
    lookupQ (qsSet (parse_qs u0.query) "p" [natToStr 2]) "a" =
      lookupQ (parse_qs u0.query) "a" :=
  ⟨(c4_page_url_amended u0).1 rfl,
    ((c4_page_url_amended u0).2 2 (by decide)).1,
    ((c4_page_url_amended u0).2 2 (by decide)).2 "a" (by decide)⟩

/-- Counterexample for C5: the claim says the id attribute has the leading
`comment_` prefix stripped, but the source removes every occurrence of
`comment_`, so for the attribute `comment_comment_5` the code yields `5`
while prefix stripping would yield `comment_5`. -/
theorem c5_cex :
    deriveCommentId hash0 (some "comment_comment_5") "u" "t" "x" = "5" ∧
    specPrefixStripped "comment_comment_5" = "comment_5" ∧
    ("5" : String) ≠ "comment_5" := by decide

/-- Claim C5 (amended): when the id attribute does not start with
`comment_` and is non-empty it is used unchanged; when it starts with
`comment_`, every occurrence of `comment_` is removed and the result is
used if non-empty; when the attribute is missing, empty, or reduces to the
empty string, the id is synthesized as
`{user}_{timestamp}_{hash(commentText) mod 1000000}`, a fixed function of
`(user, timestamp, commentText)`, hence deterministic within a crawl. -/
theorem c5_comment_id_amended (h : String → Int) (idAttr : Option String)
    (u t c : String) :
    (∀ s : String, idAttr = some s → pyStartsWith s "comment_" = false → s ≠ "" →
      deriveCommentId h idAttr u t c = s) ∧
    (∀ s : String, idAttr = some s → pyStartsWith s "comment_" = true →
      pyReplace s "comment_" "" ≠ "" →
      deriveCommentId h idAttr u t c = pyReplace s "comment_" "") ∧
    (∀ s : String, idAttr = some s → pyStartsWith s "comment_" = true →
      pyReplace s "comment_" "" = "" →
      deriveCommentId h idAttr u t c =
        u ++ "_" ++ t ++ "_" ++ natToStr ((h c).emod 1000000).toNat) ∧
    ((idAttr = none ∨ idAttr = some "") →
      deriveCommentId h idAttr u t c =
        u ++ "_" ++ t ++ "_" ++ natToStr ((h c).emod 1000000).toNat) := by
  refine ⟨?_, ?_, ?_, ?_⟩
  · rintro s rfl hsw hne
    simp [deriveCommentId, hsw, hne]
  · rintro s rfl hsw hne
    simp [deriveCommentId, hsw, hne]
  · rintro s rfl hsw hne
    simp [deriveCommentId, hsw, hne]
  · have hempty : pyStartsWith "" "comment_" = false := rfl
    rintro (rfl | rfl) <;> simp [deriveCommentId, hempty]

/-- Witness for C5: each amended branch at a concrete input. -/
theorem c5_comment_id_witness :
    deriveCommentId hash0 (some "a1") "u" "t" "x" = "a1" ∧
    deriveCommentId hash0 (some "comment_77") "u" "t" "x" = pyReplace "comment_77" "comment_" "" ∧
    deriveCommentId hash0 (some "comment_") "u" "t" "x" =
      "u" ++ "_" ++ "t" ++ "_" ++ natToStr ((hash0 "x").emod 1000000).toNat ∧
    deriveCommentId hash0 none "u" "t" "x" =
      "u" ++ "_" ++ "t" ++ "_" ++ natToStr ((hash0 "x").emod 1000000).toNat :=
  ⟨(c5_comment_id_amended hash0 (some "a1") "u" "t" "x").1 "a1" rfl (by decide) (by decide),
    (c5_comment_id_amended hash0 (some "comment_77") "u" "t" "x").2.1 "comment_77" rfl
      (by decide) (by decide),
    (c5_comment_id_amended hash0 (some "comment_") "u" "t" "x").2.2.1 "comment_" rfl
      (by decide) (by decide),
    (c5_comment_id_amended hash0 none "u" "t" "x").2.2.2 (Or.inl rfl)⟩

/-- The extractor returns `none` exactly when neither author-link selector
matches. -/
theorem parse_single_none_iff (h : String → Int) (now : String) (b : Block) :
    parse_single_comment h now b = none ↔ b.authorLinkA = none ∧ b.authorLinkB = none := by
  unfold parse_single_comment authorLinkOf
  rcases ha : b.authorLinkA with _ | l <;> rcases hb : b.authorLinkB with _ | l' <;> simp

/-- Counterexample for C6: the claim says a block with missing text yields
no record from the extractor, but for a block with an author link and no
text container the extractor returns a record with empty text; the empty
text is only filtered downstream. -/
theorem c6_cex :
    parse_single_comment hash0 "T" blockNT = some cdNT ∧
    cdNT.comment_text = "" ∧
    blockNT.textDivA = none ∧ blockNT.textDivB = none ∧
    parse_single_comment hash0 "T" blockNT ≠ none := by decide

/-- Claim C6 (amended): the per-block extractor returns no record exactly
when the author link cannot be located at all; a record with
missing/whitespace-only text is returned by the extractor and rejected
downstream by the admission step, which leaves the state unchanged. -/
theorem c6_extractor_amended (h : String → Int) (now : String) (b : Block) :
    (parse_single_comment h now b = none ↔
      b.authorLinkA = none ∧ b.authorLinkB = none) ∧
    ∀ (st : CrawlState) (cd : CommentData), parse_single_comment h now b = some cd →
      pyStrip cd.comment_text = "" → processBlock h now st b = (st, false) := by
  refine ⟨parse_single_none_iff h now b, ?_⟩
  intro st cd hp h1
  simp [processBlock, hp, h1]

/-- Witness for C6: the empty-text record is rejected without effect, and
a block with no author link yields no record. -/
theorem c6_extractor_witness :
    processBlock hash0 "T" initialState blockNT = (initialState, false) ∧
    parse_single_comment hash0 "T" blockNone = none :=
  ⟨(c6_extractor_amended hash0 "T" blockNT).2 initialState cdNT (by decide) (by decide),
    (c6_extractor_amended hash0 "T" blockNone).1.mpr ⟨rfl, rfl⟩⟩

/-- Claim C7: any failure surfaced by the first-page fetch (a network
error or any other exception, both handlers of `parse_profile`) makes the
crawl return the empty mapping instead of propagating. -/
theorem c7_error_policy (h : String → Int) (now : String) (profile_url : String)
    (e : PyErr) (fetch : Nat → Option PageMarkup) (max_pages : Nat) :
    parse_profile h now profile_url (Except.error e) fetch max_pages = [] := rfl

/-- Claim C8: the total-count resolver tries its three strategies in
order, first success winning; first-page markup without the init-script
and the anchor but with a `totalcount` element reading "42" resolves to
42; and when all three strategies fail it returns 0. -/
theorem c8_resolver_order :
    get_total_comments_count soup42 = 42 ∧
    (∀ (s : Soup) (n : Int), firstScriptTotal s.scripts = some n →
      get_total_comments_count s = n) ∧
    (∀ (s : Soup) (n : Nat), firstScriptTotal s.scripts = none →
      totalFromLink s.allCommentsLink = some n → get_total_comments_count s = (n : Int)) ∧
    (∀ (s : Soup) (n : Int), firstScriptTotal s.scripts = none →
      totalFromLink s.allCommentsLink = none → totalFromElem s.totalcountElem = some n →
      get_total_comments_count s = n) ∧
    (∀ s : Soup, firstScriptTotal s.scripts = none → totalFromLink s.allCommentsLink = none →
      totalFromElem s.totalcountElem = none → get_total_comments_count s = 0) := by
  refine ⟨by decide, ?_, ?_, ?_, ?_⟩
  · intro s n h1
    simp [get_total_comments_count, h1]
  · intro s n h1 h2
    simp [get_total_comments_count, h1, h2]
  · intro s n h1 h2 h3
    simp [get_total_comments_count, h1, h2, h3]
  · intro s h1 h2 h3
    simp [get_total_comments_count, h1, h2, h3]

/-- Witness for C8: all-strategies-failed markup resolves to 0, and
init-script markup resolves through strategy 1. -/
theorem c8_resolver_witness :
    get_total_comments_count soupEmptyRes = 0 ∧ get_total_comments_count soupScript = 7 :=
  ⟨c8_resolver_order.2.2.2.2 soupEmptyRes rfl rfl rfl,
    c8_resolver_order.2.1 soupScript 7 (by decide)⟩

/-- Claim C9: a record that is not admitted (no parse, empty or
placeholder text, or an already-seen id) leaves `seen_comment_ids`, the
aggregate mapping and `total_comments` exactly as they were. -/
theorem c9_reject_frame (h : String → Int) (now : String) (st : CrawlState) (b : Block)
    (hr : (processBlock h now st b).2 = false) :
    (processBlock h now st b).1 = st :=
  processBlock_rejected_eq h now st b hr

/-- Witness for C9 at a block the extractor rejects. -/
theorem c9_reject_witness :
    (processBlock hash0 "T" initialState blockNone).1 = initialState :=
  c9_reject_frame hash0 "T" initialState blockNone (by decide)

/-- Claim C10: the value `_parse_comments_from_html` returns for a page is
exactly the number of records newly admitted by that call, i.e. the
increase of `total_comments` and of the size of `seen_comment_ids`. -/
theorem c10_page_count (h : String → Int) (now : String) (st : CrawlState)
    (pm : PageMarkup) :
    (parse_comments_from_html h now st pm).1.total =
      st.total + (parse_comments_from_html h now st pm).2 ∧
    (parse_comments_from_html h now st pm).1.seen.length =
      st.seen.length + (parse_comments_from_html h now st pm).2 := by
  have := processBlocks_total h now (pageBlocks pm) st
  simpa [parse_comments_from_html] using this

end SteamComments
